import Mathlib

namespace Presentation

/-!
Shallow embedding of the real-time compositing and recording pipeline of the
presentation-trainer client: the composite tick and the recording controller
state of useRecording.ts, the onstop delivery handler, and the FFmpeg
transcode hook (useFFmpeg / convertWebMToMP4).  Pixel coordinates are
rationals; byte buffers are lists of naturals; timestamps are structured
date-times rendered the way Date.prototype.toISOString renders them.
-/

/-- Overlay geometry of the camera window: the cameraPosition record
threaded into useRecording.  Coordinates are surface pixels. -/
structure CameraPosition where
  x : ℚ
  y : ℚ
  width : ℚ
  height : ℚ
  deriving DecidableEq

/-- A destination rectangle of a drawImage call: drawX, drawY, drawWidth,
drawHeight. -/
structure Rect where
  x : ℚ
  y : ℚ
  w : ℚ
  h : ℚ
  deriving DecidableEq

/-- The part of the canvas transform the composite loop uses: an x scale a
with translation e and a y scale d with translation f, as set up by
ctx.translate and ctx.scale. -/
structure Affine2 where
  a : ℚ
  e : ℚ
  d : ℚ
  f : ℚ
  deriving DecidableEq

/-- Apply the transform to a user-space point. -/
def applyAffine (T : Affine2) (p : ℚ × ℚ) : ℚ × ℚ :=
  (T.a * p.1 + T.e, T.d * p.2 + T.f)

/-- The default canvas transform: identity. -/
def idAffine : Affine2 :=
  { a := 1, e := 0, d := 1, f := 0 }

/-- The transform in force for the mirrored camera draw
(useRecording.ts lines 81 and 82): ctx.translate of x + width, y followed by
ctx.scale of -1, 1. -/
def mirrorAffine (pos : CameraPosition) : Affine2 :=
  { a := -1, e := pos.x + pos.width, d := 1, f := pos.y }

/-- Letterbox fit computed for the display video on each composite tick
(useRecording.ts lines 56 to 70): drawWidth and drawHeight start at the
canvas size, then one axis is shrunk according to the aspect comparison and
the leftover space on that axis is split in half. -/
def displayDrawRect (canvasW canvasH videoW videoH : ℚ) : Rect :=
  let displayAspect := videoW / videoH
  let canvasAspect := canvasW / canvasH
  if displayAspect > canvasAspect then
    { x := 0, y := (canvasH - canvasW / displayAspect) / 2,
      w := canvasW, h := canvasW / displayAspect }
  else
    { x := (canvasW - canvasH * displayAspect) / 2, y := 0,
      w := canvasH * displayAspect, h := canvasH }

/-- The camera drawImage call of a composite tick (useRecording.ts lines 80
to 98): when isMirrored holds, the mirror transform is installed and the
image is drawn at 0, 0 with the overlay size; otherwise the identity
transform is kept and the image is drawn at the overlay position. -/
def cameraDrawCall (pos : CameraPosition) (isMirrored : Bool) : Affine2 × Rect :=
  if isMirrored then
    (mirrorAffine pos, { x := 0, y := 0, w := pos.width, h := pos.height })
  else
    (idAffine, { x := pos.x, y := pos.y, w := pos.width, h := pos.height })

/-- Surface point onto which the normalized camera source point (s, t),
with s and t in [0, 1], is drawn by the camera drawImage call. -/
def cameraDest (pos : CameraPosition) (isMirrored : Bool) (s t : ℚ) : ℚ × ℚ :=
  let call := cameraDrawCall pos isMirrored
  applyAffine call.1 (call.2.x + s * call.2.w, call.2.y + t * call.2.h)

/-- The two conditional drawImage calls a composite tick issues after
clearing the surface to black. -/
structure TickDraws where
  displayCall : Option (Affine2 × Rect)
  cameraCall : Option (Affine2 × Rect)
  deriving DecidableEq

/-- One tick of the composite loop (useRecording.ts lines 50 to 104).  The
display draw is guarded only by the readiness check on line 55 and always
runs under the identity transform, before the ctx.save block; the camera
draw is guarded by the readiness check on line 76 and is the only draw
affected by isMirrored. -/
def compositeTick (canvasW canvasH : ℚ) (displayReady : Bool) (videoW videoH : ℚ)
    (cameraReady : Bool) (pos : CameraPosition) (isMirrored : Bool) : TickDraws :=
  { displayCall :=
      if displayReady then some (idAffine, displayDrawRect canvasW canvasH videoW videoH)
      else none,
    cameraCall := if cameraReady then some (cameraDrawCall pos isMirrored) else none }

/-- Mutable state of the recording controller: the React state isRecording
and recordingTime plus the refs of useRecording.  mediaRecorder holds the id
of the MediaRecorder currently stored in mediaRecorderRef (ids are drawn
from the fresh counter nextId); timerActive says whether the interval whose
handle is currently stored in timerIntervalRef is live; leakedTimers counts
intervals whose handles were overwritten by a later start without being
cleared and which therefore keep firing. -/
structure ControllerState where
  isRecording : Bool
  recordingTime : ℕ
  chunks : List (List ℕ)
  mediaRecorder : Option ℕ
  timerActive : Bool
  leakedTimers : ℕ
  nextId : ℕ
  deriving DecidableEq

/-- The controller state before any recording: nothing recorded, no
recorder, no timer. -/
def initState : ControllerState :=
  { isRecording := false, recordingTime := 0, chunks := [],
    mediaRecorder := none, timerActive := false, leakedTimers := 0, nextId := 0 }

/-- startRecording (useRecording.ts lines 21 to 143).  streamsReady models
the guard on line 22, the only guard in the function: when it fails the
function returns with no state change.  Otherwise a fresh canvas, composite
loop and MediaRecorder are created unconditionally: recordedChunksRef is
reset on line 120, a new recorder id is stored on line 132, isRecording is
set on line 133, recordingTime is reset on line 134 and a new interval is
scheduled on line 137, overwriting the previous interval handle without
clearing it. -/
def startRecording (streamsReady : Bool) (s : ControllerState) : ControllerState :=
  if streamsReady then
    { isRecording := true,
      recordingTime := 0,
      chunks := [],
      mediaRecorder := some s.nextId,
      timerActive := true,
      leakedTimers := s.leakedTimers + (if s.timerActive then 1 else 0),
      nextId := s.nextId + 1 }
  else s

/-- One wall-clock second: every live interval fires its
setRecordingTime callback (useRecording.ts line 138) once, each adding 1. -/
def secondTick (s : ControllerState) : ControllerState :=
  { s with recordingTime :=
      s.recordingTime + (if s.timerActive then 1 else 0) + s.leakedTimers }

/-- k wall-clock seconds. -/
def runTicks : ℕ → ControllerState → ControllerState
  | 0, s => s
  | k + 1, s => runTicks k (secondTick s)

/-- stopRecording (useRecording.ts lines 145 to 204): returns at once when
mediaRecorderRef is empty (line 146); otherwise stops the recorder, sets
isRecording to false (line 195) and clears the current animation frame and
the current interval (lines 198 to 203).  The recorder ref and the chunk
list are left as they are. -/
def stopRecording (s : ControllerState) : ControllerState :=
  match s.mediaRecorder with
  | none => s
  | some _ => { s with isRecording := false, timerActive := false }

/-- The ondataavailable handler (useRecording.ts lines 125 to 129): a chunk
is appended to recordedChunksRef only when its size is positive. -/
def ondataavailable (chunks : List (List ℕ)) (data : List ℕ) : List (List ℕ) :=
  if 0 < data.length then chunks ++ [data] else chunks

/-- The chunk list produced by a sequence of data events. -/
def recordedChunks (events : List (List ℕ)) : List (List ℕ) :=
  events.foldl ondataavailable []

/-- The Blob built from recordedChunksRef on stop (useRecording.ts
line 150): byte concatenation of the chunks in order. -/
def finalizeWebM (chunks : List (List ℕ)) : List ℕ :=
  chunks.flatten

/-- A calendar instant to second precision, the part of a JavaScript Date
that survives toISOString followed by slice of the first 19 characters. -/
structure DateTime where
  year : ℕ
  month : ℕ
  day : ℕ
  hour : ℕ
  minute : ℕ
  second : ℕ
  deriving DecidableEq

/-- Two-digit zero padding used by toISOString for every field but the
year. -/
def pad2 (n : ℕ) : String :=
  if n < 10 then "0" ++ toString n else toString n

/-- Four-digit zero padding used by toISOString for the year. -/
def pad4 (n : ℕ) : String :=
  if n < 10 then "000" ++ toString n
  else if n < 100 then "00" ++ toString n
  else if n < 1000 then "0" ++ toString n
  else toString n

/-- Date.prototype.toISOString truncated by slice (0, 19): the first 19
characters YYYY-MM-DDTHH:MM:SS; the fractional seconds and the Z suffix
are cut off by the slice. -/
def isoSlice19 (d : DateTime) : String :=
  pad4 d.year ++ "-" ++ pad2 d.month ++ "-" ++ pad2 d.day ++ "T" ++
    pad2 d.hour ++ ":" ++ pad2 d.minute ++ ":" ++ pad2 d.second

/-- The replace call with the global colon pattern: every colon becomes a
hyphen. -/
def replaceColons (s : String) : String :=
  String.mk (s.data.map (fun c => if c = ':' then '-' else c))

/-- Timestamp part of the download name built in the onstop handler
(useRecording.ts lines 162, 170, 180 and 189): the current Date at the
moment the handler runs, rendered by toISOString, sliced to 19 characters,
colons replaced by hyphens. -/
def timestampName (now : DateTime) : String :=
  replaceColons (isoSlice19 now)

/-- Modelled from the spec: the filename the specification prescribes,
derived from the session start timestamp.  The code under src records no
start timestamp, so this definition follows the words of the spec and is
compared with the filename onstopDeliver actually builds. -/
def claimedStartFilename (sessionStart : DateTime) (ext : String) : String :=
  "presentation-" ++ timestampName sessionStart ++ "." ++ ext

/-- Outcome of awaiting convertWebMToMP4 inside the onstop handler: ok
when a blob was returned, failed when null was returned, threw when the
promise rejected (handled by the catch block on line 174). -/
inductive TranscodeResult where
  | ok (mp4 : List ℕ)
  | failed
  | threw
  deriving DecidableEq

/-- What the onstop handler hands to output delivery: the downloaded bytes,
the suggested filename, and whether a conversion failure was logged to the
console on the way. -/
structure Delivery where
  data : List ℕ
  filename : String
  warned : Bool
  deriving DecidableEq

/-- The onstop handler (useRecording.ts lines 149 to 193).  outputFormat
selects the branch; for mp4 the awaited converter result is matched: a blob
is downloaded as mp4, while a null result (line 165) and a rejected promise
(line 174) both fall back to downloading the original webm blob after
logging a console error, modelled by warned. -/
def onstopDeliver (outputFormat : String) (webmBlob : List ℕ)
    (result : TranscodeResult) (now : DateTime) : Delivery :=
  if outputFormat = "mp4" then
    match result with
    | TranscodeResult.ok mp4 =>
        { data := mp4,
          filename := "presentation-" ++ timestampName now ++ ".mp4",
          warned := false }
    | TranscodeResult.failed =>
        { data := webmBlob,
          filename := "presentation-" ++ timestampName now ++ ".webm",
          warned := true }
    | TranscodeResult.threw =>
        { data := webmBlob,
          filename := "presentation-" ++ timestampName now ++ ".webm",
          warned := true }
  else
    { data := webmBlob,
      filename := "presentation-" ++ timestampName now ++ ".webm",
      warned := false }

/-- JavaScript Math.round: the floor of x + 1/2. -/
def jsRound (x : ℚ) : ℤ :=
  Int.floor (x + 1 / 2)

/-- Values passed to setConversionProgress over one convertWebMToMP4 job:
0 on entry (useFFmpeg line 110), one rounded percentage per engine progress
event (lines 71 to 73), and 0 again on completion, whether the job succeeds
(line 147) or fails (line 154). -/
def reportedProgress (events : List ℚ) : List ℤ :=
  0 :: events.map (fun p => jsRound (p * 100)) ++ [0]

/-- The in-memory filesystem of the FFmpeg engine: named byte files. -/
structure FFmpegFS where
  files : List (String × List ℕ)
  deriving DecidableEq

/-- ffmpeg.writeFile: create or overwrite the named file. -/
def writeFile (fs : FFmpegFS) (name : String) (content : List ℕ) : FFmpegFS :=
  { files := (name, content) :: fs.files.filter (fun e => e.1 != name) }

/-- ffmpeg.deleteFile: remove the named file. -/
def deleteFile (fs : FFmpegFS) (name : String) : FFmpegFS :=
  { files := fs.files.filter (fun e => e.1 != name) }

/-- Behaviour of the external FFmpeg engine during one job: whether the
engine finished loading (isFFmpegReady), the progress fractions its progress
events carry, whether the conversion pipeline (exec followed by readFile)
succeeds, and the bytes of output.mp4 on success. -/
structure EngineBehavior where
  ready : Bool
  execProgress : List ℚ
  execOk : Bool
  output : List ℕ
  deriving DecidableEq

/-- Observable outcome of one convertWebMToMP4 call: the resolved value
(a blob or null), the engine filesystem at the moment of resolution, and
the sequence of values given to setConversionProgress along the way. -/
structure ConvertRun where
  result : Option (List ℕ)
  fs : FFmpegFS
  trace : List ℤ
  deriving DecidableEq

/-- convertWebMToMP4 (useFFmpeg, useLayoutPresets.ts lines 101 to 157).
When the engine is not ready the call resolves null at once (lines 102 to
105), before any progress write.  Otherwise input.webm is written (line
118) and the conversion runs: on success output.mp4 is read, both files are
deleted (lines 143 and 144) and the blob is resolved; on failure the catch
block (lines 150 to 156) resolves null without any deleteFile call, leaving
the files written so far in place.  Every internal failure is caught, so
the call never rejects. -/
def convertWebMToMP4 (beh : EngineBehavior) (webmBlob : List ℕ)
    (fs0 : FFmpegFS) : ConvertRun :=
  if beh.ready then
    let fs1 := writeFile fs0 "input.webm" webmBlob
    if beh.execOk then
      let fs2 := writeFile fs1 "output.mp4" beh.output
      let fs3 := deleteFile (deleteFile fs2 "input.webm") "output.mp4"
      { result := some beh.output, fs := fs3,
        trace := reportedProgress beh.execProgress }
    else
      { result := none, fs := fs1,
        trace := reportedProgress beh.execProgress }
  else
    { result := none, fs := fs0, trace := [] }

/-- Bridge from the resolved converter value to the match performed by the
onstop handler: ok on a blob, failed on null; convertWebMToMP4 never
rejects. -/
def toResult (r : Option (List ℕ)) : TranscodeResult :=
  match r with
  | some b => TranscodeResult.ok b
  | none => TranscodeResult.failed

/-- Correctness package for the letterbox fit of the display source: aspect
preserved, positive size, containment in the surface, equal margins on both
axes, and at least one axis filled. -/
def LetterboxSpec (canvasW canvasH videoW videoH : ℚ) : Prop :=
  let r := displayDrawRect canvasW canvasH videoW videoH
  r.w * videoH = r.h * videoW ∧
  0 < r.w ∧ 0 < r.h ∧
  0 ≤ r.x ∧ 0 ≤ r.y ∧ r.x + r.w ≤ canvasW ∧ r.y + r.h ≤ canvasH ∧
  2 * r.x + r.w = canvasW ∧ 2 * r.y + r.h = canvasH ∧
  (r.w = canvasW ∨ r.h = canvasH)

/-- Exactness package for the camera overlay at geometry pos under mirror
flag m: every destination point lies in the geometry rectangle; every point
of the rectangle is hit; the unmirrored map is the plain placement; the
mirrored map is its reflection about the vertical center line of the
rectangle; on a tick with a ready camera frame exactly this call is issued;
and the display draw of the same tick is independent of the flag and uses
the identity transform. -/
def CameraOverlaySpec (pos : CameraPosition) (m : Bool) : Prop :=
  (∀ s t : ℚ, 0 ≤ s → s ≤ 1 → 0 ≤ t → t ≤ 1 →
      pos.x ≤ (cameraDest pos m s t).1 ∧
      (cameraDest pos m s t).1 ≤ pos.x + pos.width ∧
      pos.y ≤ (cameraDest pos m s t).2 ∧
      (cameraDest pos m s t).2 ≤ pos.y + pos.height) ∧
  (∀ u v : ℚ, pos.x ≤ u → u ≤ pos.x + pos.width →
      pos.y ≤ v → v ≤ pos.y + pos.height →
      ∃ s t : ℚ, 0 ≤ s ∧ s ≤ 1 ∧ 0 ≤ t ∧ t ≤ 1 ∧ cameraDest pos m s t = (u, v)) ∧
  (∀ s t : ℚ, cameraDest pos false s t
      = (pos.x + s * pos.width, pos.y + t * pos.height)) ∧
  (∀ s t : ℚ, cameraDest pos true s t
      = (2 * (pos.x + pos.width / 2) - (cameraDest pos false s t).1,
         (cameraDest pos false s t).2)) ∧
  (∀ (canvasW canvasH : ℚ) (displayReady : Bool) (videoW videoH : ℚ),
      (compositeTick canvasW canvasH displayReady videoW videoH true pos m).cameraCall
        = some (cameraDrawCall pos m)) ∧
  (∀ (canvasW canvasH : ℚ) (displayReady : Bool) (videoW videoH : ℚ)
      (cameraReady : Bool) (m2 : Bool),
      (compositeTick canvasW canvasH displayReady videoW videoH cameraReady pos m).displayCall
        = (compositeTick canvasW canvasH displayReady videoW videoH cameraReady pos m2).displayCall) ∧
  (∀ (canvasW canvasH videoW videoH : ℚ) (cameraReady : Bool),
      (compositeTick canvasW canvasH true videoW videoH cameraReady pos m).displayCall
        = some (idAffine, displayDrawRect canvasW canvasH videoW videoH))

/-- Elapsed time package for one recording session started from state s:
the counter starts at 0, counts exactly the elapsed seconds while active,
never decreases under a tick, and is frozen by stopRecording. -/
def ElapsedSpec (s : ControllerState) : Prop :=
  (startRecording true s).recordingTime = 0 ∧
  (∀ k : ℕ, (runTicks k (startRecording true s)).recordingTime = k) ∧
  (∀ (t : ControllerState) (k : ℕ),
      (runTicks k t).recordingTime ≤ (runTicks (k + 1) t).recordingTime) ∧
  (∀ k j : ℕ,
      (stopRecording (runTicks k (startRecording true s))).recordingTime = k ∧
      (runTicks j (stopRecording (runTicks k (startRecording true s)))).recordingTime = k)

/-- A wall-clock second changes only recordingTime; k seconds add k times
the number of live intervals. -/
theorem runTicks_spec (k : ℕ) (t : ControllerState) :
    (runTicks k t).recordingTime
      = t.recordingTime + k * ((if t.timerActive then 1 else 0) + t.leakedTimers) ∧
    (runTicks k t).timerActive = t.timerActive ∧
    (runTicks k t).leakedTimers = t.leakedTimers ∧
    (runTicks k t).mediaRecorder = t.mediaRecorder := by
  induction k generalizing t with
  | zero => simp [runTicks]
  | succ k ih =>
    have h := ih (secondTick t)
    have e1 : (secondTick t).recordingTime
        = t.recordingTime + (if t.timerActive then 1 else 0) + t.leakedTimers := rfl
    have e2 : (secondTick t).timerActive = t.timerActive := rfl
    have e3 : (secondTick t).leakedTimers = t.leakedTimers := rfl
    have e4 : (secondTick t).mediaRecorder = t.mediaRecorder := rfl
    rw [e1, e2, e3, e4] at h
    have hrun : runTicks (k + 1) t = runTicks k (secondTick t) := rfl
    refine ⟨?_, ?_, ?_, ?_⟩
    · rw [hrun, h.1]; ring
    · rw [hrun, h.2.1]
    · rw [hrun, h.2.2.1]
    · rw [hrun, h.2.2.2]

/-- stopRecording on a state holding a recorder clears the recording flag
and the current interval, keeping everything else. -/
theorem stopRecording_some (t : ControllerState) (i : ℕ)
    (h : t.mediaRecorder = some i) :
    stopRecording t = { t with isRecording := false, timerActive := false } := by
  unfold stopRecording
  rw [h]

/-- Claim C7: while a session is active the reported elapsed time starts at
0 and increases by exactly 1 per wall-clock second, never decreasing; once a
stop request is processed the counter is frozen at its final value and no
further tick changes it.  The hypotheses say the session is started from a
state with no live interval, as produced by initState or by any balanced
start and stop. -/
theorem recordingTime_per_second (s : ControllerState)
    (hTimer : s.timerActive = false) (hLeak : s.leakedTimers = 0) :
    ElapsedSpec s := by
  have hstart : startRecording true s
      = { isRecording := true, recordingTime := 0, chunks := [],
          mediaRecorder := some s.nextId, timerActive := true,
          leakedTimers := 0, nextId := s.nextId + 1 } := by
    simp [startRecording, hTimer, hLeak]
  have ha1 : (startRecording true s).recordingTime = 0 := by rw [hstart]
  have ha2 : (startRecording true s).timerActive = true := by rw [hstart]
  have ha3 : (startRecording true s).leakedTimers = 0 := by rw [hstart]
  have ha4 : (startRecording true s).mediaRecorder = some s.nextId := by rw [hstart]
  refine ⟨ha1, ?_, ?_, ?_⟩
  · intro k
    have h := (runTicks_spec k (startRecording true s)).1
    rw [ha1, ha2, ha3] at h
    simpa using h
  · intro t k
    have h1 := (runTicks_spec k t).1
    have h2 := (runTicks_spec (k + 1) t).1
    rw [h1, h2]
    exact Nat.add_le_add_left
      (Nat.mul_le_mul (Nat.le_succ k) (le_refl _)) _
  · intro k j
    have hrec : (runTicks k (startRecording true s)).mediaRecorder = some s.nextId := by
      rw [(runTicks_spec k (startRecording true s)).2.2.2, ha4]
    have htime : (runTicks k (startRecording true s)).recordingTime = k := by
      have h := (runTicks_spec k (startRecording true s)).1
      rw [ha1, ha2, ha3] at h
      simpa using h
    have hstop := stopRecording_some _ _ hrec
    have hstopTime : (stopRecording (runTicks k (startRecording true s))).recordingTime = k := by
      rw [hstop]; exact htime
    refine ⟨hstopTime, ?_⟩
    have hstopTimer : (stopRecording (runTicks k (startRecording true s))).timerActive = false := by
      rw [hstop]
    have hstopLeak : (stopRecording (runTicks k (startRecording true s))).leakedTimers = 0 := by
      rw [hstop]
      show (runTicks k (startRecording true s)).leakedTimers = 0
      rw [(runTicks_spec k (startRecording true s)).2.2.1, ha3]
    have h := (runTicks_spec j (stopRecording (runTicks k (startRecording true s)))).1
    rw [hstopTime, hstopTimer, hstopLeak] at h
    simpa using h

/-- Witness for C7 at the initial controller state. -/
theorem recordingTime_per_second_witness : ElapsedSpec initState :=
  recordingTime_per_second initState rfl rfl

/-- Claim C1 counterexample: in an active state with 5 elapsed seconds and
one recorded chunk, a further start request with ready sources is not a
no-op — the state changes. -/
theorem startRecording_active_cex :
    (⟨true, 5, [[1]], some 0, true, 0, 1⟩ : ControllerState).isRecording = true ∧
    startRecording true ⟨true, 5, [[1]], some 0, true, 0, 1⟩
      ≠ ⟨true, 5, [[1]], some 0, true, 0, 1⟩ := by
  exact ⟨rfl, by decide⟩

/-- Claim C1 amended: a start request while a session is active is guarded
only by source availability; it builds a fresh session in place of the old
one — the chunk list is emptied, the elapsed counter is reset to 0, a new
MediaRecorder replaces the old one in the ref — and the interval of the old
session keeps running because its handle is overwritten without being
cleared.  The freshness hypothesis states that the stored recorder id was
not already the next id of the fresh counter. -/
theorem startRecording_active_replaces (s : ControllerState)
    (_hActive : s.isRecording = true)
    (hFresh : s.mediaRecorder ≠ some s.nextId) :
    (startRecording true s).isRecording = true ∧
    (startRecording true s).recordingTime = 0 ∧
    (startRecording true s).chunks = [] ∧
    (startRecording true s).mediaRecorder = some s.nextId ∧
    (startRecording true s).mediaRecorder ≠ s.mediaRecorder ∧
    (s.timerActive = true →
      (startRecording true s).leakedTimers = s.leakedTimers + 1) := by
  refine ⟨rfl, rfl, rfl, rfl, ?_, ?_⟩
  · show some s.nextId ≠ s.mediaRecorder
    exact fun h => hFresh h.symm
  · intro h
    show s.leakedTimers + (if s.timerActive then 1 else 0) = s.leakedTimers + 1
    rw [h]
    rfl

/-- Witness for the amended C1 at a concrete active state. -/
theorem startRecording_active_replaces_witness :
    (startRecording true ⟨true, 5, [[1]], some 0, true, 0, 1⟩).isRecording = true ∧
    (startRecording true ⟨true, 5, [[1]], some 0, true, 0, 1⟩).recordingTime = 0 ∧
    (startRecording true ⟨true, 5, [[1]], some 0, true, 0, 1⟩).chunks = [] ∧
    (startRecording true ⟨true, 5, [[1]], some 0, true, 0, 1⟩).mediaRecorder = some 1 ∧
    (startRecording true ⟨true, 5, [[1]], some 0, true, 0, 1⟩).mediaRecorder ≠ some 0 ∧
    (true = true →
      (startRecording true ⟨true, 5, [[1]], some 0, true, 0, 1⟩).leakedTimers = 0 + 1) :=
  startRecording_active_replaces ⟨true, 5, [[1]], some 0, true, 0, 1⟩ rfl (by decide)

/-- Claim C3 counterexample: with a ready display frame of width 1280 and
height 0 the display draw of the tick is still issued — the only guard on
the display draw is the readiness check, so a zero-height frame is not
skipped. -/
theorem zero_height_drawn_cex :
    (compositeTick 1920 1080 true 1280 0 false ⟨16, 864, 200, 150⟩ false).displayCall
      ≠ none := by
  decide

/-- Claim C3 amended: the display draw of a composite tick is skipped
exactly when the readiness check on the display video fails; the frame
dimensions, including a zero height, are never consulted, so nothing
prevents the zero-denominator aspect computation. -/
theorem display_skipped_iff_not_ready
    (canvasW canvasH : ℚ) (displayReady : Bool) (videoW videoH : ℚ)
    (cameraReady : Bool) (pos : CameraPosition) (m : Bool) :
    (compositeTick canvasW canvasH displayReady videoW videoH cameraReady pos m).displayCall
      = none ↔ displayReady = false := by
  cases displayReady <;> simp [compositeTick]

/-- Folding the data handler over a list of events appends exactly the
events of positive size, in order. -/
theorem recordedChunks_foldl (events : List (List ℕ)) (acc : List (List ℕ)) :
    events.foldl ondataavailable acc
      = acc ++ events.filter (fun d => decide (0 < d.length)) := by
  induction events generalizing acc with
  | nil => simp
  | cons e es ih =>
    rw [List.foldl_cons, ih]
    by_cases h : 0 < e.length <;>
      simp [ondataavailable, h, List.filter_cons]

/-- Claim C10: every chunk the data callback appends is non-empty — size 0
chunks are discarded — the chunk list is exactly the subsequence of
non-empty data events in arrival order, and the finalized webm artifact is
the concatenation of exactly those chunks in that order. -/
theorem chunks_nonempty_concat (events : List (List ℕ)) :
    (∀ c ∈ recordedChunks events, c ≠ []) ∧
    recordedChunks events = events.filter (fun d => decide (0 < d.length)) ∧
    finalizeWebM (recordedChunks events)
      = (events.filter (fun d => decide (0 < d.length))).flatten := by
  have h : recordedChunks events
      = events.filter (fun d => decide (0 < d.length)) := by
    have := recordedChunks_foldl events []
    simpa [recordedChunks] using this
  refine ⟨?_, h, by rw [finalizeWebM, h]⟩
  intro c hc
  rw [h] at hc
  have hd := List.of_mem_filter hc
  intro hnil
  rw [hnil] at hd
  simp at hd

/-- Claim C5: whenever the display source has a ready frame of positive
size, the computed fit scales the frame uniformly, keeps it fully inside the
surface, and centers it on the axis with leftover space, for every
combination of source and surface aspect ratios. -/
theorem displayDrawRect_letterbox (canvasW canvasH videoW videoH : ℚ)
    (hcw : 0 < canvasW) (hch : 0 < canvasH)
    (hvw : 0 < videoW) (hvh : 0 < videoH) :
    LetterboxSpec canvasW canvasH videoW videoH := by
  have hda : 0 < videoW / videoH := div_pos hvw hvh
  simp only [LetterboxSpec, displayDrawRect]
  split_ifs with hc
  · dsimp only
    have hH : canvasW / (videoW / videoH) ≤ canvasH := by
      rw [div_le_iff₀ hda]
      have h1 : canvasW / canvasH < videoW / videoH := hc
      have h2 : canvasW < videoW / videoH * canvasH := (div_lt_iff₀ hch).mp h1
      linarith [mul_comm (videoW / videoH) canvasH]
    have hHpos : 0 < canvasW / (videoW / videoH) := div_pos hcw hda
    refine ⟨?_, hcw, hHpos, le_refl 0, ?_, ?_, ?_, ?_, ?_, Or.inl rfl⟩
    · rw [div_div_eq_mul_div, div_mul_eq_mul_div, mul_div_assoc,
        div_self hvw.ne', mul_one]
    · linarith
    · linarith
    · linarith
    · ring
    · ring
  · dsimp only
    have hle : videoW / videoH ≤ canvasW / canvasH := le_of_not_lt hc
    have hW : canvasH * (videoW / videoH) ≤ canvasW := by
      have h1 : canvasH * (videoW / videoH) ≤ canvasH * (canvasW / canvasH) :=
        mul_le_mul_of_nonneg_left hle hch.le
      have h2 : canvasH * (canvasW / canvasH) = canvasW := by
        field_simp
      linarith
    have hWpos : 0 < canvasH * (videoW / videoH) := mul_pos hch hda
    refine ⟨?_, hWpos, hch, ?_, le_refl 0, ?_, ?_, ?_, ?_, Or.inr rfl⟩
    · rw [mul_assoc, div_mul_cancel₀ _ hvh.ne']
    · linarith
    · linarith
    · linarith
    · ring
    · ring

/-- Witness for C5 at a concrete surface and frame size. -/
theorem displayDrawRect_letterbox_witness : LetterboxSpec 1920 1080 1280 720 :=
  displayDrawRect_letterbox 1920 1080 1280 720
    (by norm_num) (by norm_num) (by norm_num) (by norm_num)

/-- Claim C4: on a tick with a ready camera frame, the camera sub-image is
drawn exactly onto the rectangle given by the overlay geometry, flipped
about the vertical center line of that rectangle exactly when the mirror
flag is set, and the display sub-image of the same tick is never affected
by the flag. -/
theorem camera_overlay_exact (pos : CameraPosition) (m : Bool)
    (hw : 0 < pos.width) (hh : 0 < pos.height) :
    CameraOverlaySpec pos m := by
  have hfalse : ∀ s t : ℚ, cameraDest pos false s t
      = (pos.x + s * pos.width, pos.y + t * pos.height) := by
    intro s t
    simp [cameraDest, cameraDrawCall, applyAffine, idAffine]
  have htrue : ∀ s t : ℚ, cameraDest pos true s t
      = (pos.x + pos.width - s * pos.width, pos.y + t * pos.height) := by
    intro s t
    simp only [cameraDest, cameraDrawCall, applyAffine, mirrorAffine,
      if_true, Prod.mk.injEq]
    constructor <;> ring
  refine ⟨?_, ?_, hfalse, ?_, ?_, ?_, ?_⟩
  · intro s t hs0 hs1 ht0 ht1
    have hsw0 : 0 ≤ s * pos.width := mul_nonneg hs0 hw.le
    have hsw1 : s * pos.width ≤ pos.width := by nlinarith
    have hth0 : 0 ≤ t * pos.height := mul_nonneg ht0 hh.le
    have hth1 : t * pos.height ≤ pos.height := by nlinarith
    cases m
    · have e := hfalse s t
      refine ⟨?_, ?_, ?_, ?_⟩ <;> rw [e] <;> dsimp only <;> linarith
    · have e := htrue s t
      refine ⟨?_, ?_, ?_, ?_⟩ <;> rw [e] <;> dsimp only <;> linarith
  · intro u v hu0 hu1 hv0 hv1
    have hwne : pos.width ≠ 0 := hw.ne'
    have hhne : pos.height ≠ 0 := hh.ne'
    have ht0 : 0 ≤ (v - pos.y) / pos.height :=
      div_nonneg (by linarith) hh.le
    have ht1 : (v - pos.y) / pos.height ≤ 1 := by
      rw [div_le_one hh]; linarith
    have htv : (v - pos.y) / pos.height * pos.height = v - pos.y :=
      div_mul_cancel₀ _ hhne
    cases m
    · refine ⟨(u - pos.x) / pos.width, (v - pos.y) / pos.height,
        div_nonneg (by linarith) hw.le, ?_, ht0, ht1, ?_⟩
      · rw [div_le_one hw]; linarith
      · rw [hfalse]
        have hu : (u - pos.x) / pos.width * pos.width = u - pos.x :=
          div_mul_cancel₀ _ hwne
        rw [Prod.mk.injEq, hu, htv]
        constructor <;> ring
    · refine ⟨(pos.x + pos.width - u) / pos.width, (v - pos.y) / pos.height,
        div_nonneg (by linarith) hw.le, ?_, ht0, ht1, ?_⟩
      · rw [div_le_one hw]; linarith
      · rw [htrue]
        have hu : (pos.x + pos.width - u) / pos.width * pos.width
            = pos.x + pos.width - u := div_mul_cancel₀ _ hwne
        rw [Prod.mk.injEq, hu, htv]
        constructor <;> ring
  · intro s t
    rw [htrue s t, hfalse s t]
    rw [Prod.mk.injEq]
    constructor
    · ring
    · rfl
  · intro canvasW canvasH displayReady videoW videoH
    simp [compositeTick]
  · intro canvasW canvasH displayReady videoW videoH cameraReady m2
    rfl
  · intro canvasW canvasH videoW videoH cameraReady
    simp [compositeTick]

/-- Witness for C4 at the default overlay geometry with the mirror flag
set. -/
theorem camera_overlay_exact_witness : CameraOverlaySpec ⟨16, 864, 200, 150⟩ true :=
  camera_overlay_exact ⟨16, 864, 200, 150⟩ true (by norm_num) (by norm_num)

/-- Claim C2 counterexample: a session that starts at 2025-01-02T03:04:05
and whose onstop handler runs at 2025-01-02T03:04:06 gets a filename built
from the delivery instant, not from the session start — the code takes a
fresh Date inside the handler and records no start timestamp at all. -/
theorem delivered_filename_cex :
    (onstopDeliver "webm" [1] TranscodeResult.failed ⟨2025, 1, 2, 3, 4, 6⟩).filename
      = claimedStartFilename ⟨2025, 1, 2, 3, 4, 6⟩ "webm" ∧
    (onstopDeliver "webm" [1] TranscodeResult.failed ⟨2025, 1, 2, 3, 4, 6⟩).filename
      ≠ claimedStartFilename ⟨2025, 1, 2, 3, 4, 5⟩ "webm" := by
  constructor <;> decide

/-- Claim C2 amended: the suggested filename of every delivery is
presentation- followed by the ISO-8601 timestamp of the moment the onstop
handler runs (not of the session start), truncated to seconds with colons
replaced by hyphens, with extension mp4 exactly when the requested format
is mp4 and the converter returned a blob, and webm otherwise. -/
theorem delivered_filename_amended (fmt : String) (w : List ℕ)
    (res : TranscodeResult) (now : DateTime) :
    (onstopDeliver fmt w res now).filename
      = "presentation-" ++ timestampName now ++
          (if fmt = "mp4" then
            (match res with
             | TranscodeResult.ok _ => ".mp4"
             | TranscodeResult.failed => ".webm"
             | TranscodeResult.threw => ".webm")
          else ".webm") := by
  by_cases h : fmt = "mp4" <;> cases res <;> simp [onstopDeliver, h]

/-- Claim C6: when the requested delivery format is mp4 and the conversion
fails or yields no blob, the onstop handler still delivers exactly the
original webm bytes under a webm filename, with the failure logged as a
warning; the same holds when the conversion promise rejects and the catch
block runs, so no completed recording is lost and no failure escapes the
handler. -/
theorem mp4_failure_fallback (beh : EngineBehavior) (w : List ℕ)
    (fs0 : FFmpegFS) (now : DateTime)
    (hfail : beh.execOk = false ∨ beh.ready = false) :
    (onstopDeliver "mp4" w (toResult (convertWebMToMP4 beh w fs0).result) now).data = w ∧
    (onstopDeliver "mp4" w (toResult (convertWebMToMP4 beh w fs0).result) now).filename
      = "presentation-" ++ timestampName now ++ ".webm" ∧
    (onstopDeliver "mp4" w (toResult (convertWebMToMP4 beh w fs0).result) now).warned
      = true ∧
    (onstopDeliver "mp4" w TranscodeResult.threw now).data = w ∧
    (onstopDeliver "mp4" w TranscodeResult.threw now).warned = true := by
  have hres : (convertWebMToMP4 beh w fs0).result = none := by
    rcases hfail with h | h
    · cases hb : beh.ready <;> simp [convertWebMToMP4, h, hb]
    · simp [convertWebMToMP4, h]
  rw [hres]
  exact ⟨rfl, rfl, rfl, rfl, rfl⟩

/-- Witness for C6: a ready engine that fails mid-job. -/
theorem mp4_failure_fallback_witness :
    (onstopDeliver "mp4" [7, 8]
        (toResult (convertWebMToMP4 ⟨true, [], false, []⟩ [7, 8] ⟨[]⟩).result)
        ⟨2025, 1, 2, 3, 4, 5⟩).data = [7, 8] ∧
    (onstopDeliver "mp4" [7, 8]
        (toResult (convertWebMToMP4 ⟨true, [], false, []⟩ [7, 8] ⟨[]⟩).result)
        ⟨2025, 1, 2, 3, 4, 5⟩).filename
      = "presentation-" ++ timestampName ⟨2025, 1, 2, 3, 4, 5⟩ ++ ".webm" ∧
    (onstopDeliver "mp4" [7, 8]
        (toResult (convertWebMToMP4 ⟨true, [], false, []⟩ [7, 8] ⟨[]⟩).result)
        ⟨2025, 1, 2, 3, 4, 5⟩).warned = true ∧
    (onstopDeliver "mp4" [7, 8] TranscodeResult.threw ⟨2025, 1, 2, 3, 4, 5⟩).data
      = [7, 8] ∧
    (onstopDeliver "mp4" [7, 8] TranscodeResult.threw ⟨2025, 1, 2, 3, 4, 5⟩).warned
      = true :=
  mp4_failure_fallback ⟨true, [], false, []⟩ [7, 8] ⟨[]⟩ ⟨2025, 1, 2, 3, 4, 5⟩
    (Or.inl rfl)

/-- The rounded percentage of a nonnegative fraction is nonnegative. -/
theorem jsRound_nonneg (x : ℚ) (h : 0 ≤ x) : 0 ≤ jsRound x := by
  unfold jsRound
  exact Int.le_floor.mpr (by push_cast; linarith)

/-- The rounded percentage of a value at most 100 is at most 100. -/
theorem jsRound_le_100 (x : ℚ) (h : x ≤ 100) : jsRound x ≤ 100 := by
  unfold jsRound
  by_contra hlt
  push_neg at hlt
  have h101 : (101 : ℤ) ≤ Int.floor (x + 1 / 2) := hlt
  have := Int.le_floor.mp h101
  push_cast at this
  linarith

/-- The rounded percentage of a fraction at most 1 is exactly 100 precisely
when the fraction is at least 199/200. -/
theorem jsRound_eq_100_iff (p : ℚ) (hle : p ≤ 1) :
    jsRound (p * 100) = 100 ↔ (199 / 200 : ℚ) ≤ p := by
  unfold jsRound
  rw [Int.floor_eq_iff]
  constructor
  · rintro ⟨h1, _⟩
    push_cast at h1
    linarith
  · intro h
    constructor
    · push_cast
      linarith
    · push_cast
      linarith

/-- Claim C8 counterexample: on a job whose engine emits full progress and
then succeeds, the reported sequence is 0, 100, 0 — the closing reset makes
it decrease after reaching 100 — while a job that emits full progress and
then fails still reports 100 although its outcome is null. -/
theorem conversionProgress_cex :
    (convertWebMToMP4 ⟨true, [1], true, [5]⟩ [7] ⟨[]⟩).trace = [0, 100, 0] ∧
    ¬ List.Pairwise (· ≤ ·) ((convertWebMToMP4 ⟨true, [1], true, [5]⟩ [7] ⟨[]⟩).trace) ∧
    (100 : ℤ) ∈ (convertWebMToMP4 ⟨true, [1], false, []⟩ [7] ⟨[]⟩).trace ∧
    (convertWebMToMP4 ⟨true, [1], false, []⟩ [7] ⟨[]⟩).result = none := by
  have h1 : (convertWebMToMP4 ⟨true, [1], true, [5]⟩ [7] ⟨[]⟩).trace = [0, 100, 0] := by
    simp only [convertWebMToMP4, reportedProgress, jsRound, List.map]
    norm_num
  have h2 : (convertWebMToMP4 ⟨true, [1], false, []⟩ [7] ⟨[]⟩).trace = [0, 100, 0] := by
    simp only [convertWebMToMP4, reportedProgress, jsRound, List.map]
    norm_num
  refine ⟨h1, ?_, ?_, rfl⟩
  · rw [h1]; decide
  · rw [h2]; decide

/-- Claim C8 amended: over one job the values handed to
setConversionProgress are the rounded engine fractions bracketed by resets
to 0; with engine fractions in [0, 1] every reported value is an integer in
[0, 100]; the reporting is identical for a succeeding and a failing job and
its last value is 0 in both cases, so the sequence is not monotone once a
positive value has been reported; and 100 is reported exactly when the
engine emits a fraction of at least 199/200, independently of the
outcome. -/
theorem conversionProgress_amended (beh : EngineBehavior) (w : List ℕ)
    (fs0 : FFmpegFS) (hready : beh.ready = true)
    (hfrac : ∀ p ∈ beh.execProgress, 0 ≤ p ∧ p ≤ 1) :
    (∀ v ∈ (convertWebMToMP4 beh w fs0).trace, 0 ≤ v ∧ v ≤ 100) ∧
    (∀ (evs : List ℚ) (out : List ℕ),
        (convertWebMToMP4 ⟨true, evs, true, out⟩ w fs0).trace
          = (convertWebMToMP4 ⟨true, evs, false, out⟩ w fs0).trace) ∧
    (convertWebMToMP4 beh w fs0).trace.getLast? = some 0 ∧
    ((100 : ℤ) ∈ (convertWebMToMP4 beh w fs0).trace
      ↔ ∃ p ∈ beh.execProgress, (199 / 200 : ℚ) ≤ p) := by
  have htr : (convertWebMToMP4 beh w fs0).trace
      = reportedProgress beh.execProgress := by
    cases he : beh.execOk <;> simp [convertWebMToMP4, hready, he]
  refine ⟨?_, ?_, ?_, ?_⟩
  · intro v hv
    rw [htr] at hv
    simp only [reportedProgress] at hv
    rcases List.mem_cons.mp hv with rfl | hv
    · exact ⟨le_refl 0, by norm_num⟩
    rcases List.mem_append.mp hv with hv | hv
    · rcases List.mem_map.mp hv with ⟨p, hp, rfl⟩
      obtain ⟨h0, h1⟩ := hfrac p hp
      exact ⟨jsRound_nonneg _ (by nlinarith), jsRound_le_100 _ (by nlinarith)⟩
    · have h0 := List.mem_singleton.mp hv
      subst h0
      exact ⟨le_refl 0, by norm_num⟩
  · intro evs out
    simp [convertWebMToMP4]
  · rw [htr]
    show (0 :: ((beh.execProgress.map fun p => jsRound (p * 100)) ++ [0])).getLast?
      = some 0
    rw [← List.cons_append, List.getLast?_concat]
  · rw [htr]
    simp only [reportedProgress]
    constructor
    · intro h
      rcases List.mem_cons.mp h with h0 | h
      · exact absurd h0 (by norm_num)
      rcases List.mem_append.mp h with h | h0
      · rcases List.mem_map.mp h with ⟨p, hp, hr⟩
        exact ⟨p, hp, (jsRound_eq_100_iff p (hfrac p hp).2).mp hr⟩
      · have := List.mem_singleton.mp h0
        exact absurd this (by norm_num)
    · rintro ⟨p, hp, hge⟩
      refine List.mem_cons.mpr (Or.inr (List.mem_append.mpr (Or.inl ?_)))
      exact List.mem_map.mpr ⟨p, hp, (jsRound_eq_100_iff p (hfrac p hp).2).mpr hge⟩

/-- Witness for the amended C8: a ready engine emitting one half-way
progress event. -/
theorem conversionProgress_amended_witness :
    (∀ v ∈ (convertWebMToMP4 ⟨true, [1 / 2], true, [5]⟩ [7] ⟨[]⟩).trace,
        0 ≤ v ∧ v ≤ 100) ∧
    (∀ (evs : List ℚ) (out : List ℕ),
        (convertWebMToMP4 ⟨true, evs, true, out⟩ [7] ⟨[]⟩).trace
          = (convertWebMToMP4 ⟨true, evs, false, out⟩ [7] ⟨[]⟩).trace) ∧
    (convertWebMToMP4 ⟨true, [1 / 2], true, [5]⟩ [7] ⟨[]⟩).trace.getLast? = some 0 ∧
    ((100 : ℤ) ∈ (convertWebMToMP4 ⟨true, [1 / 2], true, [5]⟩ [7] ⟨[]⟩).trace
      ↔ ∃ p ∈ [(1 / 2 : ℚ)], (199 / 200 : ℚ) ≤ p) :=
  conversionProgress_amended ⟨true, [1 / 2], true, [5]⟩ [7] ⟨[]⟩ rfl
    (by intro p hp; simp at hp; subst hp; constructor <;> norm_num)

/-- Claim C9 counterexample: a ready engine whose conversion fails leaves
input.webm in the engine filesystem at the moment the null outcome is
resolved — the deleteFile calls run only on the success path. -/
theorem ffmpeg_cleanup_cex :
    (convertWebMToMP4 ⟨true, [], false, []⟩ [7] ⟨[]⟩).fs.files
      = [("input.webm", [7])] ∧
    (convertWebMToMP4 ⟨true, [], false, []⟩ [7] ⟨[]⟩).result = none := by
  constructor <;> rfl

/-- Claim C9 amended: on success both intermediate files are removed from
the engine filesystem before the blob outcome is resolved; on failure no
cleanup happens — the input file written for the job is still present, with
the job bytes, at the moment the null outcome is resolved. -/
theorem ffmpeg_cleanup_amended (beh : EngineBehavior) (w : List ℕ)
    (fs0 : FFmpegFS) (hready : beh.ready = true) :
    (beh.execOk = true →
      ∀ e ∈ (convertWebMToMP4 beh w fs0).fs.files,
        e.1 ≠ "input.webm" ∧ e.1 ≠ "output.mp4") ∧
    (beh.execOk = false →
      ("input.webm", w) ∈ (convertWebMToMP4 beh w fs0).fs.files ∧
      (convertWebMToMP4 beh w fs0).result = none) := by
  constructor
  · intro hok e he
    simp only [convertWebMToMP4, hready, hok, if_true, deleteFile,
      List.mem_filter, bne_iff_ne, ne_eq, decide_eq_true_eq] at he
    exact ⟨he.1.2, he.2⟩
  · intro hfail
    simp only [convertWebMToMP4, hready, hfail, if_true, Bool.false_eq_true,
      if_false, writeFile]
    exact ⟨List.mem_cons_self _ _, trivial⟩

/-- Witness for the amended C9: a ready engine that succeeds. -/
theorem ffmpeg_cleanup_amended_witness :
    ((⟨true, [], true, [5]⟩ : EngineBehavior).execOk = true →
      ∀ e ∈ (convertWebMToMP4 ⟨true, [], true, [5]⟩ [7] ⟨[]⟩).fs.files,
        e.1 ≠ "input.webm" ∧ e.1 ≠ "output.mp4") ∧
    ((⟨true, [], true, [5]⟩ : EngineBehavior).execOk = false →
      ("input.webm", [7]) ∈ (convertWebMToMP4 ⟨true, [], true, [5]⟩ [7] ⟨[]⟩).fs.files ∧
      (convertWebMToMP4 ⟨true, [], true, [5]⟩ [7] ⟨[]⟩).result = none) :=
  ffmpeg_cleanup_amended ⟨true, [], true, [5]⟩ [7] ⟨[]⟩ rfl

end Presentation
